import Mathlib

/-!
Verification development for the sharelist-smb server (SMB1/CIFS server with
a read-only "sharelist" backend).

This file shallowly embeds the parts of the JavaScript source that the checked
properties are about:

  * `lib/ntlm.js`                          — NTLM/NTLMv2 primitives
  * `lib/smb/handler.js`                   — command dispatcher
  * `lib/smb/cmd/close.js`, `nt_create_andx.js`,
    `cmd/trans2/trans2_set_fs_information.js`, the READ_ANDX and DELETE
    handlers                               — per-command preflight logic
  * `lib/backends/sharelist/file.js`, `tree.js` — read-only backend mutations
    and the Rectifier ranged prefetcher

Conventions of the embedding:
  * JS `Buffer`s are `List Nat` of byte values; a mutable destination buffer
    written by index is an unbounded byte store `Nat → Nat`.
  * Fallible Node `Buffer` reads (which throw `RangeError` past the end)
    return `Except JsErr _`; `Buffer.slice` clamps and never throws.
  * JS numbers that only ever hold non-negative integers are `Nat`; values
    that participate in possibly-negative arithmetic (Rectifier positions)
    are `Int`.
  * Loops without a structural measure carry an explicit fuel argument; a
    lemma proves the chosen fuel can never be exhausted, so the fuel-based
    function agrees with the source loop everywhere.
-/

/-! ### Byte-level helpers (lib/utils.js collaborators and Node Buffer ops) -/

/-- Error kinds surfaced by the embedded JS operations.  `outOfFuel` is an
artifact of the fuel-based loop embedding and is proved unreachable. -/
inductive JsErr where
  | rangeError
  | typeError
  | referenceError (ident : String)
  | outOfFuel
  deriving DecidableEq, Repr

instance exceptDecEq {ε α : Type} [DecidableEq ε] [DecidableEq α] :
    DecidableEq (Except ε α) := fun a b =>
  match a, b with
  | .error e, .error f =>
    if h : e = f then .isTrue (h ▸ rfl)
    else .isFalse fun hh => h (by cases hh; rfl)
  | .ok x, .ok y =>
    if h : x = y then .isTrue (h ▸ rfl)
    else .isFalse fun hh => h (by cases hh; rfl)
  | .error _, .ok _ => .isFalse fun hh => Except.noConfusion hh
  | .ok _, .error _ => .isFalse fun hh => Except.noConfusion hh

/-- Unchecked little-endian u16 read: `buf[off] | (buf[off+1] << 8)` with
out-of-range indices reading 0 (used where the source can not go out of
range, or where the surrounding code guards the access). -/
def u16At (l : List Nat) (off : Nat) : Nat :=
  l.getD off 0 + 256 * l.getD (off + 1) 0

/-- Unchecked byte read. -/
def u8At (l : List Nat) (off : Nat) : Nat :=
  l.getD off 0

/-- Unchecked little-endian u32 read. -/
def u32At (l : List Nat) (off : Nat) : Nat :=
  u16At l off + 65536 * u16At l (off + 2)

/-- `Buffer.readUInt16LE(off)`: throws `RangeError` unless `off + 2 ≤ length`. -/
def readUInt16LE (l : List Nat) (off : Nat) : Except JsErr Nat :=
  if off + 2 ≤ l.length then .ok (u16At l off) else .error .rangeError

/-- `Buffer.readUInt32LE(off)`: throws `RangeError` unless `off + 4 ≤ length`. -/
def readUInt32LE (l : List Nat) (off : Nat) : Except JsErr Nat :=
  if off + 4 ≤ l.length then .ok (u32At l off) else .error .rangeError

/-- `Buffer.slice(s, e)`: clamping slice, never throws. -/
def jsSlice (l : List Nat) (s e : Nat) : List Nat :=
  (l.take e).drop s

/-- Little-endian byte serialisation of `n` on `w` bytes (truncating). -/
def bytesLE : Nat → Nat → List Nat
  | 0, _ => []
  | w + 1, n => n % 256 :: bytesLE w (n / 256)

/-- Sum of the chunk sizes of a chunk queue. -/
def sumLen (bufs : List (List Nat)) : Nat :=
  (bufs.map List.length).sum

/-- Concatenation of a chunk queue into one byte stream. -/
def concatAll : List (List Nat) → List Nat
  | [] => []
  | c :: cs => c ++ concatAll cs

/-- Modelled from the spec: `utils.bufferEquals` (lib/utils.js is not part of
the covered sources) is a constant-time byte comparison; extensionally it
decides equality of the two byte sequences. -/
def bufferEquals (a b : List Nat) : Bool :=
  a == b

/-- Flip bit `i` (bit `i % 8` of byte `i / 8`) of a byte sequence. -/
def flipBit (i : Nat) (l : List Nat) : List Nat :=
  l.set (i / 8) (l.getD (i / 8) 0 ^^^ 2 ^ (i % 8))

theorem bytesLE_length (w n : Nat) : (bytesLE w n).length = w := by
  induction w generalizing n with
  | zero => rfl
  | succ w ih => simp [bytesLE, ih]

theorem readUInt16LE_ok_bound {l : List Nat} {off v : Nat}
    (h : readUInt16LE l off = .ok v) : off + 2 ≤ l.length := by
  by_cases hb : off + 2 ≤ l.length
  · exact hb
  · simp [readUInt16LE, hb] at h

theorem readUInt16LE_ok_of_bound {l : List Nat} {off : Nat}
    (h : off + 2 ≤ l.length) : readUInt16LE l off = .ok (u16At l off) := by
  simp [readUInt16LE, h]

theorem sumLen_cons (c : List Nat) (cs : List (List Nat)) :
    sumLen (c :: cs) = c.length + sumLen cs := by
  simp [sumLen]

theorem concatAll_cons (c : List Nat) (cs : List (List Nat)) :
    concatAll (c :: cs) = c ++ concatAll cs := rfl

/-! List index helpers shared by several proofs. -/

theorem getD_append_lt {a b : List Nat} {n : Nat} (d : Nat) (h : n < a.length) :
    (a ++ b).getD n d = a.getD n d := by
  induction a generalizing n with
  | nil => simp at h
  | cons x xs ih =>
    cases n with
    | zero => rfl
    | succ n => simpa using ih (Nat.lt_of_succ_lt_succ h)

theorem getD_append_ge {a b : List Nat} {n : Nat} (d : Nat) (h : a.length ≤ n) :
    (a ++ b).getD n d = b.getD (n - a.length) d := by
  induction a generalizing n with
  | nil => simp
  | cons x xs ih =>
    cases n with
    | zero => simp at h
    | succ n => simpa using ih (Nat.le_of_succ_le_succ h)

theorem set_append_ge {a b : List Nat} {n : Nat} (v : Nat) (h : a.length ≤ n) :
    (a ++ b).set n v = a ++ b.set (n - a.length) v := by
  induction a generalizing n with
  | nil => simp
  | cons x xs ih =>
    cases n with
    | zero => simp at h
    | succ n => simpa using ih (Nat.le_of_succ_le_succ h)

theorem getD_set_self {l : List Nat} {n : Nat} (v d : Nat) (h : n < l.length) :
    (l.set n v).getD n d = v := by
  induction l generalizing n with
  | nil => simp at h
  | cons x xs ih =>
    cases n with
    | zero => rfl
    | succ n => simpa using ih (Nat.lt_of_succ_lt_succ h)

theorem xor_pow_ne (b k : Nat) : b ^^^ 2 ^ k ≠ b := by
  intro h
  have h2 : (b ^^^ 2 ^ k) ^^^ b = b ^^^ b := congrArg (· ^^^ b) h
  rw [Nat.xor_self, Nat.xor_comm b (2 ^ k), Nat.xor_assoc, Nat.xor_self, Nat.xor_zero] at h2
  exact pow_ne_zero k (by norm_num) h2

/-! ### NTSTATUS constants

Modelled from the spec: `lib/ntstatus.js` is not among the covered sources;
the spec (§4.H, §7) names these statuses, and the values are the standard
NTSTATUS / SMB DOS-error encodings.  All proofs only use their distinctness. -/

def STATUS_SUCCESS : Nat := 0x00000000
def STATUS_MORE_PROCESSING_REQUIRED : Nat := 0xc0000016
def STATUS_NOT_IMPLEMENTED : Nat := 0xc0000002
def STATUS_NOT_SUPPORTED : Nat := 0xc00000bb
def STATUS_UNSUCCESSFUL : Nat := 0xc0000001
def STATUS_NO_SUCH_FILE : Nat := 0xc000000f
def STATUS_FILE_IS_A_DIRECTORY : Nat := 0xc00000ba
def STATUS_SMB_BAD_COMMAND : Nat := 0x00160002
def STATUS_SMB_BAD_TID : Nat := 0x00050002
def STATUS_SMB_BAD_FID : Nat := 0x00060001
def STATUS_SMB_NO_SUPPORT : Nat := 0xffff0002
def STATUS_END_OF_FILE : Nat := 0xc0000011

/-! ### expandKey (lib/ntlm.js lines 170-191)

`key64[i] = e` models the Node `Buffer` element write, which truncates the
value to a byte (`% 256`); `|= PARITY_MASK` sets bit 0, `&= ~PARITY_MASK`
clears bit 0 (written `&&& 0xfe`, equal to `& ~1` on byte values). -/

def expandKey (key56 : List Nat) : List Nat :=
  [ (u8At key56 0 &&& 0xfe) &&& 0xfe,
    (((u8At key56 0 <<< 7) &&& 0xff) ||| (u8At key56 1 >>> 1)) % 256 ||| 1,
    (((u8At key56 1 <<< 6) &&& 0xff) ||| (u8At key56 2 >>> 2)) % 256 &&& 0xfe,
    (((u8At key56 2 <<< 5) &&& 0xff) ||| (u8At key56 3 >>> 3)) % 256 ||| 1,
    (((u8At key56 3 <<< 4) &&& 0xff) ||| (u8At key56 4 >>> 4)) % 256 &&& 0xfe,
    (((u8At key56 4 <<< 3) &&& 0xff) ||| (u8At key56 5 >>> 5)) % 256 ||| 1,
    (((u8At key56 5 <<< 2) &&& 0xff) ||| (u8At key56 6 >>> 6)) % 256 &&& 0xfe,
    ((u8At key56 6 <<< 1) &&& 0xff) % 256 ||| 1 ]

/-! ### MD5 and HMAC-MD5 (external `crypto` collaborators)

`crypto.createHash('md5')` / `crypto.createHmac('md5', key)` are external
library calls; they are embedded as the standard RFC 1321 MD5 and RFC 2104
HMAC (for keys of at most one block, the only case the NTLM code exercises). -/

def add32 (a b : Nat) : Nat := (a + b) % 4294967296

def rotl32 (x s : Nat) : Nat :=
  (((x % 4294967296) <<< s) ||| ((x % 4294967296) >>> (32 - s))) % 4294967296

def md5S : List Nat :=
  [7, 12, 17, 22, 7, 12, 17, 22, 7, 12, 17, 22, 7, 12, 17, 22,
   5, 9, 14, 20, 5, 9, 14, 20, 5, 9, 14, 20, 5, 9, 14, 20,
   4, 11, 16, 23, 4, 11, 16, 23, 4, 11, 16, 23, 4, 11, 16, 23,
   6, 10, 15, 21, 6, 10, 15, 21, 6, 10, 15, 21, 6, 10, 15, 21]

def md5K : List Nat :=
  [0xd76aa478, 0xe8c7b756, 0x242070db, 0xc1bdceee,
   0xf57c0faf, 0x4787c62a, 0xa8304613, 0xfd469501,
   0x698098d8, 0x8b44f7af, 0xffff5bb1, 0x895cd7be,
   0x6b901122, 0xfd987193, 0xa679438e, 0x49b40821,
   0xf61e2562, 0xc040b340, 0x265e5a51, 0xe9b6c7aa,
   0xd62f105d, 0x02441453, 0xd8a1e681, 0xe7d3fbc8,
   0x21e1cde6, 0xc33707d6, 0xf4d50d87, 0x455a14ed,
   0xa9e3e905, 0xfcefa3f8, 0x676f02d9, 0x8d2a4c8a,
   0xfffa3942, 0x8771f681, 0x6d9d6122, 0xfde5380c,
   0xa4beea44, 0x4bdecfa9, 0xf6bb4b60, 0xbebfbc70,
   0x289b7ec6, 0xeaa127fa, 0xd4ef3085, 0x04881d05,
   0xd9d4d039, 0xe6db99e5, 0x1fa27cf8, 0xc4ac5665,
   0xf4292244, 0x432aff97, 0xab9423a7, 0xfc93a039,
   0x655b59c3, 0x8f0ccc92, 0xffeff47d, 0x85845dd1,
   0x6fa87e4f, 0xfe2ce6e0, 0xa3014314, 0x4e0811a1,
   0xf7537e82, 0xbd3af235, 0x2ad7d2bb, 0xeb86d391]

def md5Mix (i b c d : Nat) : Nat :=
  if i < 16 then (b &&& c) ||| ((4294967295 ^^^ b) &&& d)
  else if i < 32 then (d &&& b) ||| ((4294967295 ^^^ d) &&& c)
  else if i < 48 then b ^^^ c ^^^ d
  else c ^^^ (b ||| (4294967295 ^^^ d))

def md5MsgIndex (i : Nat) : Nat :=
  if i < 16 then i
  else if i < 32 then (5 * i + 1) % 16
  else if i < 48 then (3 * i + 5) % 16
  else (7 * i) % 16

def md5Step (M : List Nat) (st : Nat × Nat × Nat × Nat) (i : Nat) :
    Nat × Nat × Nat × Nat :=
  let (a, b, c, d) := st
  let f := add32 (add32 (add32 (md5Mix i b c d) a) (md5K.getD i 0))
    (M.getD (md5MsgIndex i) 0)
  (d, add32 b (rotl32 f (md5S.getD i 0)), b, c)

def wordsOfBlock (blk : List Nat) : List Nat :=
  (List.range 16).map fun i => u32At blk (4 * i)

def md5Compress (st : Nat × Nat × Nat × Nat) (blk : List Nat) :
    Nat × Nat × Nat × Nat :=
  let M := wordsOfBlock blk
  let (a, b, c, d) := (List.range 64).foldl (md5Step M) st
  (add32 st.1 a, add32 st.2.1 b, add32 st.2.2.1 c, add32 st.2.2.2 d)

def md5Pad (msg : List Nat) : List Nat :=
  msg ++ 0x80 :: List.replicate ((55 + 64 - msg.length % 64) % 64) 0
    ++ bytesLE 8 (8 * msg.length)

def toBlocks : Nat → List Nat → List (List Nat)
  | 0, _ => []
  | n + 1, l => l.take 64 :: toBlocks n (l.drop 64)

/-- RFC 1321 MD5 digest of a byte sequence. -/
def md5 (msg : List Nat) : List Nat :=
  let padded := md5Pad msg
  let st := (toBlocks (padded.length / 64) padded).foldl md5Compress
    (0x67452301, 0xefcdab89, 0x98badcfe, 0x10325476)
  bytesLE 4 st.1 ++ bytesLE 4 st.2.1 ++ bytesLE 4 st.2.2.1 ++ bytesLE 4 st.2.2.2

/-- RFC 2104 HMAC-MD5 for keys of at most 64 bytes (every key the NTLM code
passes is 16 bytes). -/
def hmacMD5 (key msg : List Nat) : List Nat :=
  let k0 := key ++ List.replicate (64 - key.length) 0
  md5 ((k0.map fun b => b ^^^ 0x5c) ++ md5 ((k0.map fun b => b ^^^ 0x36) ++ msg))

theorem md5_length (msg : List Nat) : (md5 msg).length = 16 := by
  simp [md5, bytesLE_length]

theorem hmacMD5_length (key msg : List Nat) : (hmacMD5 key msg).length = 16 :=
  md5_length _

/-! ### String encoding helpers (`new Buffer(s, 'utf16le')`, `toUpperCase`) -/

/-- UTF-16LE code units of a string, two bytes per unit, little-endian.  For
the ASCII identifiers the NTLM code handles this matches JS exactly. -/
def utf16le (s : String) : List Nat :=
  concatAll (s.data.map fun c => [c.toNat % 256, c.toNat / 256 % 256])

/-! ### NTLMv2 primitives (lib/ntlm.js) -/

/-- `createNTLM2Hash(ntlmHash, userName, domainName)` (lib/ntlm.js 145-148):
HMAC-MD5 keyed by the NTLM hash over the UTF-16LE upper-cased user+domain. -/
def createNTLM2Hash (ntlmHash : List Nat) (userName domainName : String) :
    List Nat :=
  hmacMD5 ntlmHash (utf16le (userName.toUpper ++ domainName.toUpper))

/-- `calculateNTLM2Response(ntlm2Hash, blob, challenge)` (lib/ntlm.js 160-164):
`hmac(challenge || blob) || blob`. -/
def calculateNTLM2Response (ntlm2Hash blob challenge : List Nat) : List Nat :=
  hmacMD5 ntlm2Hash (challenge ++ blob) ++ blob

/-- Modelled from the spec: `utils.smbToSystemTime` (lib/utils.js not covered)
converts 100-ns ticks since 1601-01-01 to epoch milliseconds. -/
def smbToSystemTime (ticks : Nat) : Int :=
  (ticks : Int) / 10000 - 11644473600000

structure NTLMv2Blob where
  signature : List Nat
  reserved : List Nat
  timeStamp : Int
  nonce : List Nat
  unknown : List Nat
  info : List (Nat × List Nat)
  unknown2 : List Nat
  unknownTrailer : Option (List Nat)
  deriving DecidableEq, Repr

/-- The attribute/value scan loop of `parseNTLMv2Blob` (lib/ntlm.js 249-258).
`ty` is the `type` just read, `off` the offset of its length field.  The
`fuel` argument only bounds the recursion; `scanLoop_no_outOfFuel` shows the
fuel used by `parseNTLMv2Blob` can never run out, so this is exactly the
source loop, including its unguarded `readUInt16LE` calls. -/
def scanLoop (blob : List Nat) :
    Nat → Nat → Nat → Except JsErr (List (Nat × List Nat) × Nat)
  | fuel, ty, off =>
    if ty = 0 then .ok ([], off)
    else
      match readUInt16LE blob off with
      | .error e => .error e
      | .ok len =>
        match readUInt16LE blob (off + 2 + len) with
        | .error e => .error e
        | .ok ty2 =>
          match fuel with
          | 0 => .error .outOfFuel
          | fuel + 1 =>
            match scanLoop blob fuel ty2 (off + 2 + len + 2) with
            | .error e => .error e
            | .ok (rest, fin) =>
              .ok ((ty, jsSlice blob (off + 2) (off + 2 + len)) :: rest, fin)

/-- `parseNTLMv2Blob(blob)` (lib/ntlm.js 225-268).  Returns `.ok none` for the
`return null` path, `.error _` when a `Buffer` read throws. -/
def parseNTLMv2Blob (blob : List Nat) : Except JsErr (Option NTLMv2Blob) :=
  if blob.length < 36 then .ok none
  else
    match readUInt32LE blob 8 with
    | .error e => .error e
    | .ok timeLow =>
      match readUInt32LE blob 12 with
      | .error e => .error e
      | .ok timeHigh =>
        match readUInt16LE blob 28 with
        | .error e => .error e
        | .ok ty0 =>
          match scanLoop blob blob.length ty0 30 with
          | .error e => .error e
          | .ok (info, off1) =>
            let off2 := off1 + 2
            .ok (some
              { signature := jsSlice blob 0 4
                reserved := jsSlice blob 4 8
                timeStamp := smbToSystemTime (timeLow + 4294967296 * timeHigh)
                nonce := jsSlice blob 16 24
                unknown := jsSlice blob 24 28
                info := info
                unknown2 := jsSlice blob off2 (off2 + 4)
                unknownTrailer :=
                  if off2 + 4 < blob.length then
                    some (jsSlice blob (off2 + 4) blob.length)
                  else none })

def BLOB_SIGNATURE : List Nat := [0x01, 0x01, 0x00, 0x00]

/-- `validateNTLMv2Response` (lib/ntlm.js 270-284).  When `parseNTLMv2Blob`
returns `null`, the subsequent `blobObj.signature` access throws `TypeError`;
when a read inside the parse throws, the exception propagates. -/
def validateNTLMv2Response (ntlm2Response ntlmHash : List Nat)
    (userName domainName : String) (challenge : List Nat) :
    Except JsErr Bool :=
  if ntlm2Response.length < 16 + 36 then .ok false
  else
    let hash := createNTLM2Hash ntlmHash userName domainName
    let blob := ntlm2Response.drop 16
    match parseNTLMv2Blob blob with
    | .error e => .error e
    | .ok none => .error .typeError
    | .ok (some blobObj) =>
      if ¬ bufferEquals BLOB_SIGNATURE blobObj.signature then .ok false
      else .ok (bufferEquals (calculateNTLM2Response hash blob challenge)
        ntlm2Response)

/-- Bounds-checked version of the scan: `true` iff the attribute/value list
starting with type `ty` (whose length field sits at `off`) reaches an EOL
entry with every u16 read in bounds. -/
def hasEOLScan (blob : List Nat) : Nat → Nat → Nat → Bool
  | fuel, ty, off =>
    if ty = 0 then true
    else if off + 2 ≤ blob.length then
      let len := u16At blob off
      if off + 2 + len + 2 ≤ blob.length then
        match fuel with
        | 0 => false
        | fuel + 1 => hasEOLScan blob fuel (u16At blob (off + 2 + len)) (off + 2 + len + 2)
      else false
    else false

/-- The target-info list of `blob` is EOL-terminated with all reads in
bounds (the implicit precondition of `parseNTLMv2Blob`). -/
def hasEOL (blob : List Nat) : Bool :=
  hasEOLScan blob blob.length (u16At blob 28) 30

theorem readUInt16LE_err_of_bound {l : List Nat} {off : Nat}
    (h : ¬ off + 2 ≤ l.length) : readUInt16LE l off = .error .rangeError := by
  simp [readUInt16LE, h]

theorem set_append_lt {a b : List Nat} {n : Nat} (v : Nat) (h : n < a.length) :
    (a ++ b).set n v = a.set n v ++ b := by
  induction a generalizing n with
  | nil => simp at h
  | cons x xs ih =>
    cases n with
    | zero => rfl
    | succ n => simpa using ih (Nat.lt_of_succ_lt_succ h)

/-- The fuel handed to `scanLoop` by `parseNTLMv2Blob` can never run out:
each iteration needs `off + 2 ≤ blob.length` and advances `off` by at least
4, so `blob.length` iterations always suffice. -/
theorem scanLoop_no_outOfFuel (blob : List Nat) :
    ∀ fuel ty off, blob.length ≤ off + 4 * fuel →
      scanLoop blob fuel ty off ≠ .error .outOfFuel := by
  intro fuel
  induction fuel with
  | zero =>
    intro ty off hb
    rw [scanLoop]
    split
    · simp
    · rw [readUInt16LE_err_of_bound (by omega)]
      simp
  | succ fuel ih =>
    intro ty off hb
    rw [scanLoop]
    split
    · simp
    · by_cases h1 : off + 2 ≤ blob.length
      · rw [readUInt16LE_ok_of_bound h1]
        dsimp only
        by_cases h2 : off + 2 + u16At blob off + 2 ≤ blob.length
        · rw [readUInt16LE_ok_of_bound h2]
          dsimp only
          have hrec := ih (u16At blob (off + 2 + u16At blob off))
            (off + 2 + u16At blob off + 2) (by omega)
          revert hrec
          cases scanLoop blob fuel (u16At blob (off + 2 + u16At blob off))
              (off + 2 + u16At blob off + 2) with
          | error e => intro hrec; simpa using fun h => hrec (by rw [h])
          | ok r => intro _; simp
        · rw [readUInt16LE_err_of_bound h2]
          simp
      · rw [readUInt16LE_err_of_bound h1]
        simp

/-- Under the bounds-checked EOL scan, the source scan loop cannot throw. -/
theorem scanLoop_isOk_of_hasEOLScan (blob : List Nat) :
    ∀ fuel ty off, hasEOLScan blob fuel ty off = true →
      ∃ r, scanLoop blob fuel ty off = .ok r := by
  intro fuel
  induction fuel with
  | zero =>
    intro ty off h
    rw [hasEOLScan] at h
    dsimp only at h
    split at h
    · next h0 => exact ⟨([], off), by rw [scanLoop]; simp [h0]⟩
    · split at h
      · split at h
        · simp at h
        · simp at h
      · simp at h
  | succ fuel ih =>
    intro ty off h
    rw [hasEOLScan] at h
    dsimp only at h
    split at h
    · next h0 => exact ⟨([], off), by rw [scanLoop]; simp [h0]⟩
    · next h0 =>
      split at h
      · next h1 =>
        split at h
        · next h2 =>
          obtain ⟨r, hr⟩ := ih _ _ h
          refine ⟨((ty, jsSlice blob (off + 2) (off + 2 + u16At blob off)) :: r.1, r.2), ?_⟩
          rw [scanLoop]
          rw [if_neg h0, readUInt16LE_ok_of_bound h1]
          dsimp only
          rw [readUInt16LE_ok_of_bound (by omega : off + 2 + u16At blob off + 2 ≤ blob.length)]
          dsimp only
          rw [hr]
        · simp at h
      · simp at h

theorem readUInt32LE_ok_of_bound {l : List Nat} {off : Nat}
    (h : off + 4 ≤ l.length) : readUInt32LE l off = .ok (u32At l off) := by
  simp [readUInt32LE, h]

theorem parseNTLMv2Blob_ok_of_hasEOL {blob : List Nat}
    (h36 : 36 ≤ blob.length) (he : hasEOL blob = true) :
    ∃ obj, parseNTLMv2Blob blob = .ok (some obj) ∧
      obj.signature = jsSlice blob 0 4 := by
  obtain ⟨r, hr⟩ := scanLoop_isOk_of_hasEOLScan blob blob.length (u16At blob 28) 30 he
  obtain ⟨info, fin⟩ := r
  rw [parseNTLMv2Blob, if_neg (by omega)]
  rw [readUInt32LE_ok_of_bound (by omega : 8 + 4 ≤ blob.length)]
  dsimp only
  rw [readUInt32LE_ok_of_bound (by omega : 12 + 4 ≤ blob.length)]
  dsimp only
  rw [readUInt16LE_ok_of_bound (by omega : 28 + 2 ≤ blob.length)]
  dsimp only
  rw [hr]
  exact ⟨_, rfl, rfl⟩

/-- A 36-byte blob whose target-info list has no in-bounds EOL entry: every
byte is 0xFF, so the first attribute has type 0xFFFF and length 0xFFFF and
the following type read is far past the end of the buffer. -/
def ffBlob36 : List Nat := List.replicate 36 0xff

/-- A well-formed 36-byte blob: signature `01 01 00 00`, zero body, EOL
immediately at the start of the target-info list. -/
def c9GoodBlob : List Nat := [0x01, 0x01, 0x00, 0x00] ++ List.replicate 32 0

/-- C9: `parseNTLMv2Blob` is total exactly under the precondition that the
attribute/value list has an in-bounds EOL terminator: with the terminator
(`hasEOL`) the parse never reaches the out-of-bounds branch and yields a
blob object, while the all-0xFF input of length 36 ≥ 36 has no in-bounds EOL
entry and drives the unguarded `readUInt16LE` of the scan loop past the end
of the buffer (`RangeError`). -/
theorem C9_parse_totality :
    (∀ blob : List Nat, 36 ≤ blob.length → hasEOL blob = true →
      (parseNTLMv2Blob blob).isOk = true ∧ parseNTLMv2Blob blob ≠ .ok none) ∧
    (36 ≤ ffBlob36.length ∧ hasEOL ffBlob36 = false ∧
      parseNTLMv2Blob ffBlob36 = .error .rangeError) := by
  constructor
  · intro blob h36 he
    obtain ⟨obj, hobj, _⟩ := parseNTLMv2Blob_ok_of_hasEOL h36 he
    rw [hobj]
    exact ⟨rfl, by simp⟩
  · refine ⟨by decide, by decide, by decide⟩

/-- Witness for C9: the good 36-byte blob satisfies the EOL precondition and
parses without reaching the out-of-bounds branch. -/
theorem C9_parse_totality_witness :
    (parseNTLMv2Blob c9GoodBlob).isOk = true ∧ parseNTLMv2Blob c9GoodBlob ≠ .ok none :=
  C9_parse_totality.1 c9GoodBlob (by decide) (by decide)

/-! ### C4: NTLMv2 challenge/response round-trip and bit-flips -/

def c4hash : List Nat := List.replicate 16 0
def c4challenge : List Nat := [0x01, 0x23, 0x45, 0x67, 0x89, 0xab, 0xcd, 0xef]

/-- 36-byte blob whose target-info list is EOL-terminated but whose trailing
`unknown2` field is 0xFFFFFFFF: flipping the low bit of byte 28 (the EOL
type) makes the scan read a bogus attribute whose length field is 0xFFFF. -/
def c4blob : List Nat :=
  [0x01, 0x01, 0x00, 0x00] ++ List.replicate 24 0 ++ [0, 0, 0, 0] ++ [0xff, 0xff, 0xff, 0xff]

/-- `c4blob` with bit 0 of byte 28 flipped. -/
def c4blobFlipped : List Nat :=
  [0x01, 0x01, 0x00, 0x00] ++ List.replicate 24 0 ++ [1, 0, 0, 0] ++ [0xff, 0xff, 0xff, 0xff]

def c4GoodBlob : List Nat := [0x01, 0x01, 0x00, 0x00] ++ List.replicate 32 0

/-- C4 (amended): for every NTLM hash, user, domain, challenge and well-formed
blob (length ≥ 36, valid signature, in-bounds EOL-terminated target-info
list), the computed NTLMv2 response validates; and flipping any single bit of
the 16-byte HMAC prefix of the response makes `validateNTLMv2Response` return
false.  (Flips inside the blob portion are not covered: a flip that destroys
the EOL termination makes the validator throw instead — see the
counterexample — and a flip elsewhere in the blob changes the HMAC input, so
rejection there rests on HMAC collision-freedom, not on this code.) -/
theorem C4_ntlmv2_roundtrip (ntlmHash : List Nat) (userName domainName : String)
    (challenge blob : List Nat) (i : Nat)
    (h36 : 36 ≤ blob.length) (hsig : jsSlice blob 0 4 = BLOB_SIGNATURE)
    (heol : hasEOL blob = true) (hi : i < 128) :
    validateNTLMv2Response
        (calculateNTLM2Response (createNTLM2Hash ntlmHash userName domainName)
          blob challenge)
        ntlmHash userName domainName challenge = .ok true ∧
    validateNTLMv2Response
        (flipBit i (calculateNTLM2Response (createNTLM2Hash ntlmHash userName domainName)
          blob challenge))
        ntlmHash userName domainName challenge = .ok false := by
  obtain ⟨obj, hobj, hsigobj⟩ := parseNTLMv2Blob_ok_of_hasEOL h36 heol
  set mac := hmacMD5 (createNTLM2Hash ntlmHash userName domainName) (challenge ++ blob)
    with hmacdef
  have hml : mac.length = 16 := hmacMD5_length _ _
  have hcalc : calculateNTLM2Response (createNTLM2Hash ntlmHash userName domainName)
      blob challenge = mac ++ blob := rfl
  have hdrop : (mac ++ blob).drop 16 = blob := by
    have h := List.drop_left mac blob
    rwa [hml] at h
  constructor
  · rw [hcalc, validateNTLMv2Response,
      if_neg (by rw [List.length_append, hml]; omega)]
    dsimp only
    rw [hdrop, hobj]
    dsimp only
    rw [hsigobj, hsig]
    rw [if_neg (by simp [bufferEquals])]
    rw [hcalc]
    simp [bufferEquals]
  · have hk : i / 8 < mac.length := by rw [hml]; omega
    have hsplit : flipBit i (mac ++ blob)
        = mac.set (i / 8) (mac.getD (i / 8) 0 ^^^ 2 ^ (i % 8)) ++ blob := by
      rw [flipBit, getD_append_lt _ hk, set_append_lt _ hk]
    have hml2 : (mac.set (i / 8) (mac.getD (i / 8) 0 ^^^ 2 ^ (i % 8))).length = 16 := by
      rw [List.length_set]; exact hml
    have hdrop2 : (mac.set (i / 8) (mac.getD (i / 8) 0 ^^^ 2 ^ (i % 8)) ++ blob).drop 16
        = blob := by
      have h := List.drop_left (mac.set (i / 8) (mac.getD (i / 8) 0 ^^^ 2 ^ (i % 8))) blob
      rwa [hml2] at h
    rw [hcalc, hsplit, validateNTLMv2Response,
      if_neg (by rw [List.length_append, hml2]; omega)]
    dsimp only
    rw [hdrop2, hobj]
    dsimp only
    rw [hsigobj, hsig]
    rw [if_neg (by simp [bufferEquals])]
    rw [hcalc]
    have hne : mac ≠ mac.set (i / 8) (mac.getD (i / 8) 0 ^^^ 2 ^ (i % 8)) := by
      intro h
      have h1 : (mac.set (i / 8) (mac.getD (i / 8) 0 ^^^ 2 ^ (i % 8))).getD (i / 8) 0
          = mac.getD (i / 8) 0 := by rw [← h]
      rw [getD_set_self _ _ hk] at h1
      exact xor_pow_ne _ _ h1
    have hne2 : mac ++ blob ≠ mac.set (i / 8) (mac.getD (i / 8) 0 ^^^ 2 ^ (i % 8)) ++ blob :=
      fun hh => hne (List.append_cancel_right hh)
    have hbe : bufferEquals (mac ++ blob)
        (mac.set (i / 8) (mac.getD (i / 8) 0 ^^^ 2 ^ (i % 8)) ++ blob) = false :=
      beq_eq_false_iff_ne.mpr hne2
    rw [hbe]

/-- Witness for C4: concrete hash, user, domain, challenge and blob; the
round-trip validates and flipping bit 0 (inside the HMAC prefix) is
rejected. -/
theorem C4_ntlmv2_roundtrip_witness :
    validateNTLMv2Response
        (calculateNTLM2Response (createNTLM2Hash c4hash "User" "Domain")
          c4GoodBlob c4challenge)
        c4hash "User" "Domain" c4challenge = .ok true ∧
    validateNTLMv2Response
        (flipBit 0 (calculateNTLM2Response (createNTLM2Hash c4hash "User" "Domain")
          c4GoodBlob c4challenge))
        c4hash "User" "Domain" c4challenge = .ok false :=
  C4_ntlmv2_roundtrip c4hash "User" "Domain" c4challenge c4GoodBlob 0
    (by decide) (by decide) (by decide) (by decide)

/-- Counterexample for C4 as stated: `c4blob` satisfies every premise of the
claim (length 36, valid signature, EOL-terminated target-info list), yet
flipping bit 352 of the computed response — bit 0 of blob byte 28, the EOL
type field — makes `validateNTLMv2Response` throw a RangeError from the
unguarded target-info scan instead of returning false. -/
theorem C4_ntlmv2_flip_counterexample :
    36 ≤ c4blob.length ∧ jsSlice c4blob 0 4 = BLOB_SIGNATURE ∧ hasEOL c4blob = true ∧
    validateNTLMv2Response
        (flipBit 352 (calculateNTLM2Response (createNTLM2Hash c4hash "User" "Domain")
          c4blob c4challenge))
        c4hash "User" "Domain" c4challenge = .error .rangeError := by
  refine ⟨by decide, by decide, by decide, ?_⟩
  set mac := hmacMD5 (createNTLM2Hash c4hash "User" "Domain") (c4challenge ++ c4blob)
    with hmacdef
  have hml : mac.length = 16 := hmacMD5_length _ _
  have hcalc : calculateNTLM2Response (createNTLM2Hash c4hash "User" "Domain")
      c4blob c4challenge = mac ++ c4blob := rfl
  have h44 : mac.length ≤ 352 / 8 := by rw [hml]; norm_num
  have hsplit : flipBit 352 (mac ++ c4blob) = mac ++ c4blobFlipped := by
    rw [flipBit, getD_append_ge _ h44, set_append_ge _ h44, hml]
    norm_num
    decide
  have hdrop : (mac ++ c4blobFlipped).drop 16 = c4blobFlipped := by
    have h := List.drop_left mac c4blobFlipped
    rwa [hml] at h
  rw [hcalc, hsplit, validateNTLMv2Response,
    if_neg (by rw [List.length_append, hml]; decide)]
  dsimp only
  rw [hdrop, (by decide : parseNTLMv2Blob c4blobFlipped = .error .rangeError)]

/-! ### C5: expandKey bit pattern -/

/-- C5: for every 7-byte input, `expandKey` returns 8 bytes where byte 0 is
`in[0] & 0xfe` (bit 0 cleared), byte `i` for `1 ≤ i ≤ 6` is
`((in[i-1] << (8-i)) & 0xff) | (in[i] >> i)` with the parity bit (bit 0) set
when `i` is odd and cleared when `i` is even, and byte 7 is
`((in[6] << 1) & 0xff) | 1`. -/
theorem C5_expandKey (b0 b1 b2 b3 b4 b5 b6 i : Nat)
    (h0 : b0 < 256) (h1 : b1 < 256) (h2 : b2 < 256) (h3 : b3 < 256)
    (h4 : b4 < 256) (h5 : b5 < 256) (h6 : b6 < 256)
    (hi1 : 1 ≤ i) (hi6 : i ≤ 6) :
    (expandKey [b0, b1, b2, b3, b4, b5, b6]).length = 8 ∧
    (expandKey [b0, b1, b2, b3, b4, b5, b6]).getD 0 0 = b0 &&& 0xfe ∧
    (expandKey [b0, b1, b2, b3, b4, b5, b6]).getD i 0 =
      (if i % 2 = 1 then
        ((([b0, b1, b2, b3, b4, b5, b6].getD (i - 1) 0 <<< (8 - i)) &&& 0xff) |||
          ([b0, b1, b2, b3, b4, b5, b6].getD i 0 >>> i)) ||| 1
      else
        ((([b0, b1, b2, b3, b4, b5, b6].getD (i - 1) 0 <<< (8 - i)) &&& 0xff) |||
          ([b0, b1, b2, b3, b4, b5, b6].getD i 0 >>> i)) &&& 0xfe) ∧
    (expandKey [b0, b1, b2, b3, b4, b5, b6]).getD 7 0 = ((b6 <<< 1) &&& 0xff) ||| 1 := by
  have hmaskk : ∀ a b k : Nat, b < 256 → ((a &&& 0xff) ||| (b >>> k)) % 256
      = (a &&& 0xff) ||| (b >>> k) := by
    intro a b k hb
    apply Nat.mod_eq_of_lt
    have h256 : (256 : Nat) = 2 ^ 8 := by norm_num
    rw [h256]
    have ha : a &&& 0xff < 2 ^ 8 := by
      rw [← h256]
      exact Nat.lt_succ_of_le Nat.and_le_right
    have hb2 : b >>> k < 2 ^ 8 := by
      rw [← h256, Nat.shiftRight_eq_div_pow]
      exact Nat.lt_of_le_of_lt (Nat.div_le_self b (2 ^ k)) hb
    exact Nat.or_lt_two_pow ha hb2
  refine ⟨rfl, ?_, ?_, ?_⟩
  · simp [expandKey, u8At, Nat.and_assoc]
  · interval_cases i
    · simp [expandKey, u8At, hmaskk (b0 <<< 7) b1 1 h1]
    · simp [expandKey, u8At, hmaskk (b1 <<< 6) b2 2 h2]
    · simp [expandKey, u8At, hmaskk (b2 <<< 5) b3 3 h3]
    · simp [expandKey, u8At, hmaskk (b3 <<< 4) b4 4 h4]
    · simp [expandKey, u8At, hmaskk (b4 <<< 3) b5 5 h5]
    · simp [expandKey, u8At, hmaskk (b5 <<< 2) b6 6 h6]
  · have hlast : ((b6 <<< 1) &&& 0xff) % 256 = (b6 <<< 1) &&& 0xff :=
      Nat.mod_eq_of_lt (Nat.lt_succ_of_le Nat.and_le_right)
    simp [expandKey, u8At, hlast]

/-- Witness for C5 at a concrete 7-byte key and index 1. -/
theorem C5_expandKey_witness :
    (expandKey [0x12, 0x34, 0x56, 0x78, 0x9a, 0xbc, 0xde]).length = 8 ∧
    (expandKey [0x12, 0x34, 0x56, 0x78, 0x9a, 0xbc, 0xde]).getD 0 0 = 0x12 &&& 0xfe ∧
    (expandKey [0x12, 0x34, 0x56, 0x78, 0x9a, 0xbc, 0xde]).getD 1 0 =
      (if 1 % 2 = 1 then
        ((([0x12, 0x34, 0x56, 0x78, 0x9a, 0xbc, 0xde].getD (1 - 1) 0 <<< (8 - 1)) &&& 0xff) |||
          ([0x12, 0x34, 0x56, 0x78, 0x9a, 0xbc, 0xde].getD 1 0 >>> 1)) ||| 1
      else
        ((([0x12, 0x34, 0x56, 0x78, 0x9a, 0xbc, 0xde].getD (1 - 1) 0 <<< (8 - 1)) &&& 0xff) |||
          ([0x12, 0x34, 0x56, 0x78, 0x9a, 0xbc, 0xde].getD 1 0 >>> 1)) &&& 0xfe) ∧
    (expandKey [0x12, 0x34, 0x56, 0x78, 0x9a, 0xbc, 0xde]).getD 7 0 =
      ((0xde <<< 1) &&& 0xff) ||| 1 :=
  C5_expandKey 0x12 0x34 0x56 0x78 0x9a 0xbc 0xde 1
    (by decide) (by decide) (by decide) (by decide) (by decide) (by decide) (by decide)
    (by decide) (by decide)

/-! ### C6: sharelist backend mutations (lib/backends/sharelist/file.js, tree.js)

Every mutation runs `process.nextTick(function () { cb(new
SMBError(ntstatus.STATUS_SMB_NO_SUPPORT)); })`.  Neither module has a
`require` binding for `ntstatus`, and both are in strict mode, so evaluating
the callback dereferences an undeclared identifier and throws a
`ReferenceError` instead of invoking `cb`.  The embedding scopes each module
by the list of identifiers its `require`/`class` statements bind and
evaluates the callback body under that scope. -/

inductive MutationOutcome where
  | delivered (status : Nat)
  | thrown (e : JsErr)
  deriving DecidableEq, Repr

/-- Identifiers bound at module scope in lib/backends/sharelist/file.js. -/
def fsfileModuleScope : List String :=
  ["util", "fs", "Path", "logger", "perflog", "async", "File", "SMBError",
   "readFile", "closeFile", "FSFile"]

/-- Identifiers bound at module scope in lib/backends/sharelist/tree.js. -/
def fstreeModuleScope : List String :=
  ["util", "Path", "fs", "logger", "perflog", "async", "Tree", "FSFile",
   "SMBError", "utils", "mkdirp", "FSTree"]

/-- Evaluate `cb(new SMBError(ntstatus.STATUS_SMB_NO_SUPPORT))` in the given
module scope: resolving the free identifier `ntstatus` in strict mode throws
a `ReferenceError` when the module never bound it. -/
def mutationCallbackOutcome (scope : List String) : MutationOutcome :=
  if "ntstatus" ∈ scope then .delivered STATUS_SMB_NO_SUPPORT
  else .thrown (.referenceError "ntstatus")

def FSFile.write : MutationOutcome := mutationCallbackOutcome fsfileModuleScope
def FSFile.setLength : MutationOutcome := mutationCallbackOutcome fsfileModuleScope
def FSFile.deleteOp : MutationOutcome := mutationCallbackOutcome fsfileModuleScope
def FSTree.createFile : MutationOutcome := mutationCallbackOutcome fstreeModuleScope
def FSTree.createDirectory : MutationOutcome := mutationCallbackOutcome fstreeModuleScope
def FSTree.deleteOp : MutationOutcome := mutationCallbackOutcome fstreeModuleScope
def FSTree.deleteDirectory : MutationOutcome := mutationCallbackOutcome fstreeModuleScope
def FSTree.rename : MutationOutcome := mutationCallbackOutcome fstreeModuleScope

/-- C6 evaluated at the failing input: every sharelist mutation operation
throws `ReferenceError: ntstatus is not defined` from its deferred callback
instead of delivering an `SMBError`; in particular none of them delivers
`STATUS_NOT_SUPPORTED` (nor even the `STATUS_SMB_NO_SUPPORT` the source
apparently intended). -/
theorem C6_mutations_throw :
    FSFile.write = .thrown (.referenceError "ntstatus") ∧
    FSFile.setLength = .thrown (.referenceError "ntstatus") ∧
    FSFile.deleteOp = .thrown (.referenceError "ntstatus") ∧
    FSTree.createFile = .thrown (.referenceError "ntstatus") ∧
    FSTree.createDirectory = .thrown (.referenceError "ntstatus") ∧
    FSTree.deleteOp = .thrown (.referenceError "ntstatus") ∧
    FSTree.deleteDirectory = .thrown (.referenceError "ntstatus") ∧
    FSTree.rename = .thrown (.referenceError "ntstatus") ∧
    FSFile.write ≠ .delivered STATUS_NOT_SUPPORTED ∧
    FSFile.write ≠ .delivered STATUS_SMB_NO_SUPPORT := by
  decide

/-! ### SPI abstractions and command-handler results -/

structure SPIFile where
  name : String
  isDirectory : Bool
  deriving DecidableEq, Repr

structure SPITree where
  files : List (Nat × SPIFile)
  namedPipe : Bool
  closeError : Bool
  deriving DecidableEq, Repr

/-- `tree.getFile(fid)`. -/
def SPITree.getFile (t : SPITree) (fid : Nat) : Option SPIFile :=
  t.files.lookup fid

/-- The `{status, params, data, wordCount?}` record a handler passes to its
continuation. -/
structure CmdResult where
  status : Nat
  params : List Nat
  data : List Nat
  wordCount : Option Nat := none
  deriving DecidableEq, Repr

def badTidResult : CmdResult :=
  { status := STATUS_SMB_BAD_TID, params := [], data := [] }

def badFidResult : CmdResult :=
  { status := STATUS_SMB_BAD_FID, params := [], data := [] }

def notSupportedResult : CmdResult :=
  { status := STATUS_NOT_SUPPORTED, params := [], data := [] }

/-! ### TRANS2 set-information levels

Modelled from the spec: `lib/smb/constants.js` is not among the covered
sources.  Per spec §4.E, passthrough levels are `INFO_PASSTHROUGH +
native level` and only `informationLevel ≥ INFO_PASSTHROUGH` is supported. -/

def INFO_PASSTHROUGH : Nat := 1000
def FILE_RENAME_INFORMATION : Nat := 1010
def FILE_DISPOSITION_INFORMATION : Nat := 1013
def FILE_ALLOCATION_INFORMATION : Nat := 1019
def FILE_END_OF_FILE_INFORMATION : Nat := 1020

/-- Continuations of the TRANS2 set-information handler after its preflight
checks: either an early result, or control reaches the per-level `switch`
(whose level-specific behaviour is outside the checked claims). -/
inductive Trans2SetOutcome where
  | result (r : CmdResult)
  | dispatchLevel (informationLevel fid : Nat)
  deriving DecidableEq, Repr

/-- Preflight of `trans2_set_fs_information.js` `handle` (lines 45-89): read
fid and informationLevel, reject sub-passthrough levels with
STATUS_NOT_SUPPORTED *before* the TID check, then check TID and FID. -/
def trans2SetFsInformationHandle (tree : Option SPITree) (commandParams : List Nat) :
    Except JsErr Trans2SetOutcome :=
  match readUInt16LE commandParams 0 with
  | .error e => .error e
  | .ok fid =>
    match readUInt16LE commandParams 2 with
    | .error e => .error e
    | .ok informationLevel =>
      if informationLevel < INFO_PASSTHROUGH then
        .ok (.result notSupportedResult)
      else
        match tree with
        | none => .ok (.result badTidResult)
        | some t =>
          match t.getFile fid with
          | none => .ok (.result badFidResult)
          | some _ => .ok (.dispatchLevel informationLevel fid)

/-- `close.js` `handle` (lines 41-91): read fid and lastTimeModified, then
check TID, then FID, then close (`closeError` abstracts the `closeFile`
callback error). -/
def closeHandle (tree : Option SPITree) (commandParams : List Nat) :
    Except JsErr CmdResult :=
  match readUInt16LE commandParams 0 with
  | .error e => .error e
  | .ok fid =>
    match readUInt32LE commandParams 2 with
    | .error e => .error e
    | .ok _lastTimeModified =>
      match tree with
      | none => .ok badTidResult
      | some t =>
        match t.getFile fid with
        | none => .ok badFidResult
        | some _ =>
          .ok (if t.closeError then
            { status := STATUS_UNSUCCESSFUL, params := [], data := [] }
          else
            { status := STATUS_SUCCESS, params := [], data := [] })

/-- Continuations of the READ_ANDX handler after its preflight checks. -/
inductive ReadAndXOutcome where
  | result (r : CmdResult)
  | performRead (fid maxCount offset : Nat)
  deriving DecidableEq, Repr

/-- Preflight of the READ_ANDX `handle` (src/unnamed/part_001 lines 48-108):
`binary.parse` reads (total, zero-padded), offsetHigh only when wordCount is
12 (params length 24), TID check, maxCountHigh merge for non-named-pipe
shares, FID check, directory check. -/
def readAndXHandle (tree : Option SPITree) (commandParams : List Nat) :
    ReadAndXOutcome :=
  let fid := u16At commandParams 4
  let offset0 := u32At commandParams 6
  let maxCount0 := u16At commandParams 10
  let offsetHigh := if commandParams.length = 24 then u32At commandParams 20 else 0
  let offset := if offsetHigh ≠ 0 then offset0 + 4294967296 * offsetHigh else offset0
  match tree with
  | none => .result badTidResult
  | some t =>
    let maxCount :=
      if ¬ t.namedPipe then maxCount0 + (u16At commandParams 14 <<< 16) else maxCount0
    match t.getFile fid with
    | none => .result badFidResult
    | some f =>
      if f.isDirectory then
        .result { status := STATUS_FILE_IS_A_DIRECTORY, params := [], data := [] }
      else .performRead fid maxCount offset

/-- Counterexample for C7 as stated: a TRANS2 set-information request whose
TID does not resolve but whose informationLevel (4) is below
INFO_PASSTHROUGH is answered with STATUS_NOT_SUPPORTED, not
STATUS_SMB_BAD_TID: the level check precedes the TID check. -/
theorem C7_trans2_tid_counterexample :
    trans2SetFsInformationHandle none [0, 0, 4, 0] = .ok (.result notSupportedResult) ∧
    notSupportedResult.status ≠ STATUS_SMB_BAD_TID := by
  decide

/-- C7 (amended): CLOSE and READ_ANDX answer an unresolved TID with
STATUS_SMB_BAD_TID (empty params and data); TRANS2 set-file-information does
so only when informationLevel ≥ INFO_PASSTHROUGH — for a lower level it
answers STATUS_NOT_SUPPORTED even when the TID is invalid. -/
theorem C7_bad_tid_amended (p1 p2 p3 p4 : List Nat)
    (h1len : 4 ≤ p1.length) (h1lvl : INFO_PASSTHROUGH ≤ u16At p1 2)
    (h2len : 4 ≤ p2.length) (h2lvl : u16At p2 2 < INFO_PASSTHROUGH)
    (h3len : 6 ≤ p3.length) :
    trans2SetFsInformationHandle none p1 = .ok (.result badTidResult) ∧
    trans2SetFsInformationHandle none p2 = .ok (.result notSupportedResult) ∧
    closeHandle none p3 = .ok badTidResult ∧
    readAndXHandle none p4 = .result badTidResult := by
  refine ⟨?_, ?_, ?_, ?_⟩
  · rw [trans2SetFsInformationHandle,
      readUInt16LE_ok_of_bound (by omega : 0 + 2 ≤ p1.length)]
    dsimp only
    rw [readUInt16LE_ok_of_bound (by omega : 2 + 2 ≤ p1.length)]
    dsimp only
    rw [if_neg (Nat.not_lt.mpr h1lvl)]
  · rw [trans2SetFsInformationHandle,
      readUInt16LE_ok_of_bound (by omega : 0 + 2 ≤ p2.length)]
    dsimp only
    rw [readUInt16LE_ok_of_bound (by omega : 2 + 2 ≤ p2.length)]
    dsimp only
    rw [if_pos h2lvl]
  · rw [closeHandle, readUInt16LE_ok_of_bound (by omega : 0 + 2 ≤ p3.length)]
    dsimp only
    rw [readUInt32LE_ok_of_bound (by omega : 2 + 4 ≤ p3.length)]
  · rw [readAndXHandle]

/-- Witness for C7 at concrete parameter buffers (levels 1000 and 4). -/
theorem C7_bad_tid_amended_witness :
    trans2SetFsInformationHandle none [0, 0, 232, 3] = .ok (.result badTidResult) ∧
    trans2SetFsInformationHandle none [0, 0, 4, 0] = .ok (.result notSupportedResult) ∧
    closeHandle none [0, 0, 0, 0, 0, 0] = .ok badTidResult ∧
    readAndXHandle none [] = .result badTidResult :=
  C7_bad_tid_amended [0, 0, 232, 3] [0, 0, 4, 0] [0, 0, 0, 0, 0, 0] []
    (by decide) (by decide) (by decide) (by decide) (by decide)

/-! ### C8: NT_CREATE_ANDX buildResult (nt_create_andx.js lines 109-163) -/

def NT_CREATE_REQUEST_OPBATCH : Nat := 0x00000004
def NT_CREATE_REQUEST_EXTENDED_RESPONSE : Nat := 0x00000010
def NO_EAS : Nat := 0x0001
def NO_SUBSTREAMS : Nat := 0x0002
def NO_REPARSETAG : Nat := 0x0004

/-- Modelled from the spec (§6 constants; lib/smb/constants.js not covered). -/
def FILE_TYPE_DISK : Nat := 0x0000
def FILE_TYPE_MESSAGEMODEPIPE : Nat := 0x0005

/-- Modelled from the spec: maximal-access constants from lib/smb/constants.js
(values standard; no theorem depends on them). -/
def FILE_ACCESS_ALL : Nat := 0x001f01ff
def FILE_ACCESS_READONLY : Nat := 0x00120089
def DIRECTORY_ACCESS_ALL : Nat := 0x001f01ff
def DIRECTORY_ACCESS_READONLY : Nat := 0x00100089

/-- Modelled from the spec: `utils.ZERO_GUID` — sixteen zero bytes. -/
def ZERO_GUID : List Nat := List.replicate 16 0

/-- `put().word8(n)` — one byte, truncated. -/
def u8b (n : Nat) : List Nat := [n % 256]

def u16leB (n : Nat) : List Nat := bytesLE 2 n
def u32leB (n : Nat) : List Nat := bytesLE 4 n
def u64leB (n : Nat) : List Nat := bytesLE 8 n

/-- Modelled from the spec: `utils.systemToSMBTime(ms)` — 100-ns ticks since
1601-01-01 (spec §4.A). -/
def systemToSMBTime (ms : Nat) : Nat := (ms + 11644473600000) * 10000

/-- `Long.getLowBitsUnsigned()`. -/
def lowBitsU (t : Nat) : Nat := t % 4294967296

/-- `Long.getHighBitsUnsigned()`. -/
def highBitsU (t : Nat) : Nat := t / 4294967296 % 4294967296

/-- The file attributes consumed by `buildResult`. -/
structure NTCreateFileInfo where
  fid : Nat
  createAction : Nat
  attributes : Nat
  allocationSize : Nat
  dataSize : Nat
  createdMs : Nat
  lastModifiedMs : Nat
  lastAccessedMs : Nat
  lastChangedMs : Nat
  isDir : Bool
  namedPipe : Bool
  deriving DecidableEq, Repr

/-- `buildResult(file, callback)` of the NT_CREATE_ANDX handler: serialises
the response params with `put()` and applies the wordCount quirk
(`params.length / 2 > 0x2a`, i.e. `params.length > 84`, forces
`wordCount = 0x2a`). -/
def buildResult (commandParams : List Nat) (flags : Nat) (f : NTCreateFileInfo) :
    CmdResult :=
  let smbCreated := systemToSMBTime f.createdMs
  let smbLastModified := systemToSMBTime f.lastModifiedMs
  let smbLastAccessed := systemToSMBTime f.lastAccessedMs
  let smbLastChanged := systemToSMBTime f.lastChangedMs
  let params :=
    u8b (u8At commandParams 0) ++
    u8b 0 ++
    u16leB (u16At commandParams 2) ++
    u8b (if flags &&& NT_CREATE_REQUEST_OPBATCH ≠ 0 then 2 else 0) ++
    u16leB f.fid ++
    u32leB f.createAction ++
    u32leB (lowBitsU smbCreated) ++ u32leB (highBitsU smbCreated) ++
    u32leB (lowBitsU smbLastAccessed) ++ u32leB (highBitsU smbLastAccessed) ++
    u32leB (lowBitsU smbLastModified) ++ u32leB (highBitsU smbLastModified) ++
    u32leB (lowBitsU smbLastChanged) ++ u32leB (highBitsU smbLastChanged) ++
    u32leB f.attributes ++
    u64leB f.allocationSize ++
    u64leB f.dataSize ++
    u16leB (if f.namedPipe then FILE_TYPE_MESSAGEMODEPIPE else FILE_TYPE_DISK) ++
    (if flags &&& NT_CREATE_REQUEST_EXTENDED_RESPONSE ≠ 0 then
      u16leB (NO_EAS ||| NO_SUBSTREAMS ||| NO_REPARSETAG) ++
      u8b (if f.isDir then 1 else 0) ++
      ZERO_GUID ++
      u64leB 0 ++
      u32leB (if f.isDir then DIRECTORY_ACCESS_ALL else FILE_ACCESS_ALL) ++
      u32leB (if f.isDir then DIRECTORY_ACCESS_READONLY else FILE_ACCESS_READONLY)
    else
      u16leB 0 ++ u8b (if f.isDir then 1 else 0))
  { status := STATUS_SUCCESS
    params := params
    data := []
    wordCount := if 2 * 0x2a < params.length then some 0x2a else none }

/-- C8: the OpLockLevel byte (params byte 4) of a successful NT_CREATE_ANDX
response is 2 exactly when the batch-oplock flag 0x4 is requested, and the
wordCount override 0x2a is applied exactly when `params.length / 2 > 0x2a` —
which happens exactly for extended responses (params length 100 versus 68). -/
theorem C8_nt_create_result (commandParams : List Nat) (flags : Nat)
    (f : NTCreateFileInfo) :
    (buildResult commandParams flags f).params.getD 4 0 =
      (if flags &&& NT_CREATE_REQUEST_OPBATCH ≠ 0 then 2 else 0) ∧
    (buildResult commandParams flags f).params.length =
      (if flags &&& NT_CREATE_REQUEST_EXTENDED_RESPONSE ≠ 0 then 100 else 68) ∧
    (buildResult commandParams flags f).wordCount =
      (if 2 * 0x2a < (buildResult commandParams flags f).params.length
       then some 0x2a else none) ∧
    (buildResult commandParams flags f).wordCount =
      (if flags &&& NT_CREATE_REQUEST_EXTENDED_RESPONSE ≠ 0 then some 0x2a else none) := by
  have hlen : (buildResult commandParams flags f).params.length =
      (if flags &&& NT_CREATE_REQUEST_EXTENDED_RESPONSE ≠ 0 then 100 else 68) := by
    by_cases hext : flags &&& NT_CREATE_REQUEST_EXTENDED_RESPONSE ≠ 0 <;>
      simp [buildResult, u8b, u16leB, u32leB, u64leB, ZERO_GUID, bytesLE_length, hext]
  have hwc : (buildResult commandParams flags f).wordCount =
      (if flags &&& NT_CREATE_REQUEST_EXTENDED_RESPONSE ≠ 0 then some 0x2a else none) := by
    by_cases hext : flags &&& NT_CREATE_REQUEST_EXTENDED_RESPONSE ≠ 0 <;>
      simp [buildResult, u8b, u16leB, u32leB, u64leB, ZERO_GUID, bytesLE_length, hext]
  refine ⟨?_, hlen, ?_, hwc⟩
  · by_cases hbat : flags &&& NT_CREATE_REQUEST_OPBATCH ≠ 0 <;>
      simp [buildResult, u8b, u16leB, bytesLE, List.getD, hbat]
  · rw [hwc, hlen]
    by_cases hext : flags &&& NT_CREATE_REQUEST_EXTENDED_RESPONSE ≠ 0 <;>
      simp [hext]

/-! ### Rectifier (lib/backends/sharelist/tree.js, utils part: lines 250-399)

State, `updateTask`, `read`, `when`, `reset`, `close` and the `data`/`end`
response events, embedded as pure state transformers.  Waiters are tracked by
numeric identifiers; invoking a waiter means emitting its identifier in the
fired list.  `req.pause()/resume()/abort()` and `start()` are recorded as
upstream actions. -/

structure RectTask where
  target : Int
  waiter : Nat
  deriving DecidableEq, Repr

inductive RectAction where
  | start
  | pause
  | resume
  | abort
  deriving DecidableEq, Repr

structure RectState where
  offset : Int
  size : Int
  position : Int
  cacheSize : Int
  buffers : List (List Nat)
  tasks : List RectTask
  loaded : Bool
  running : Bool
  closed : Bool
  paused : Bool
  length : Nat
  hasReq : Bool
  deriving Repr

/-- Constructor (lines 251-267): `cacheSize = max(Math.round(size / 10), 2 MiB)`
(`Math.round(x) = ⌊x + 1/2⌋`, here `(2·size + 10) / 20` on integers). -/
def mkRectifier (size offset : Int) : RectState :=
  { offset := offset
    size := size
    position := offset
    cacheSize := max ((2 * size + 10) / 20) (2 * 1024 * 1024)
    buffers := []
    tasks := []
    loaded := false
    running := false
    closed := false
    paused := false
    length := 0
    hasReq := false }

/-- `Math.max(...tasks.map(i => i[0]), 0)`. -/
def farestChunk (tasks : List RectTask) : Int :=
  tasks.foldr (fun t m => max t.target m) 0

/-- The task delivery loop of `updateTask` (lines 305-319): returns the
retained (`undone`) tasks and the fired waiters, both in order. -/
def taskLoop (position size : Int) (loaded : Bool) :
    List RectTask → List RectTask × List Nat
  | [] => ([], [])
  | t :: ts =>
    let r := taskLoop position size loaded ts
    if t.target ≤ position then (r.1, t.waiter :: r.2)
    else if t.target > size then
      if loaded then (r.1, t.waiter :: r.2) else (t :: r.1, r.2)
    else (t :: r.1, r.2)

/-- `updateTask()` (lines 288-323).  The JS resume test
`position - farestChunk < this.cacheSize / 5` divides exactly (float); on
integers it is `5 * (position - farestChunk) < cacheSize`. -/
def rectUpdateTask (s : RectState) : RectState × List Nat × List RectAction :=
  let far := farestChunk s.tasks
  let pr : Bool × List RectAction :=
    if s.position - far > s.cacheSize then (true, [.pause])
    else if 5 * (s.position - far) < s.cacheSize then
      (if s.paused then (false, [.resume]) else (s.paused, []))
    else (s.paused, [])
  let ul := taskLoop s.position s.size s.loaded s.tasks
  ({ s with paused := pr.1, tasks := ul.1 }, ul.2, pr.2)

/-- The inner `for (let i = 0; i < b.length; i++)` of `read` (lines 340-351):
copy chunk bytes into the destination at `index`, stopping when the absolute
destination index reaches `length`; returns the new destination, the final
index, and `some tail` when the stop condition fired (tail pushed back). -/
def copyChunk : (Nat → Nat) → Nat → List Nat → Nat →
    ((Nat → Nat) × Nat × Option (List Nat))
  | buf, index, [], _ => (buf, index, none)
  | buf, index, x :: rest, len =>
    let buf2 := fun j => if j = index then x else buf j
    if index + 1 = len then (buf2, index + 1, some rest)
    else copyChunk buf2 (index + 1) rest len

/-- The outer `while (null != (b = this.buffers.shift()))` of `read`:
drains the chunk queue through `copyChunk` until the stop condition fires
(pushing the tail back) or the queue is exhausted. -/
def readLoop : (Nat → Nat) → Nat → List (List Nat) → Nat →
    ((Nat → Nat) × List (List Nat) × Bool)
  | buf, _, [], _ => (buf, [], false)
  | buf, index, c :: cs, len =>
    match copyChunk buf index c len with
    | (buf2, _, some tail) => (buf2, tail :: cs, true)
    | (buf2, index2, none) => readLoop buf2 index2 cs len

/-- `read(buffer, offset, length, position, cb)` (lines 332-355): clamp
`length` to `this.length`, run the copy loop, decrement `this.length` only
when the stop condition fired, and report `(null, length, buffer)` — the
reported byte count is returned as the third component. -/
def rectRead (s : RectState) (buffer : Nat → Nat) (offset length0 : Nat) :
    RectState × (Nat → Nat) × Nat :=
  let len := if length0 > s.length then s.length else length0
  let r := readLoop buffer offset s.buffers len
  ({ s with buffers := r.2.1,
            length := if r.2.2 then s.length - len else s.length },
   r.1, len)

/-- `when(position, cb)` (lines 275-286): early-return when closed, push the
task, start the request if not running, then `updateTask`. -/
def rectWhen (s : RectState) (target : Int) (waiter : Nat) :
    RectState × List Nat × List RectAction :=
  if s.closed then (s, [], [])
  else
    let s1 := { s with tasks := s.tasks ++ [{ target := target, waiter := waiter }] }
    let started := ¬ s1.running
    let s2 := if started then { s1 with hasReq := true, running := true } else s1
    let r := rectUpdateTask s2
    (r.1, r.2.1, (if started then [RectAction.start] else []) ++ r.2.2)

/-- `reset()` (lines 269-273). -/
def rectReset (s : RectState) : RectState :=
  { s with tasks := [], loaded := false, running := false }

/-- `close(cb)` (lines 391-399): clear tasks, clear loaded, set closed, abort
the request when one exists. -/
def rectClose (s : RectState) : RectState × List RectAction :=
  let s1 := { s with tasks := [], loaded := false, closed := true }
  if s1.hasReq then (s1, [.abort]) else (s1, [])

/-- `response.on('data')` (lines 368-380): append the chunk, grow `length`
and `position`, then `updateTask`. -/
def rectOnData (s : RectState) (chunk : List Nat) :
    RectState × List Nat × List RectAction :=
  rectUpdateTask
    { s with buffers := s.buffers ++ [chunk],
             length := s.length + chunk.length,
             position := s.position + chunk.length }

/-- `response.on('end')` (lines 382-385): set `loaded`, then `updateTask`. -/
def rectOnEnd (s : RectState) : RectState × List Nat × List RectAction :=
  rectUpdateTask { s with loaded := true }

/-- The Rectifier operations that can run after construction. -/
inductive RectOp where
  | whenOp (target : Int) (waiter : Nat)
  | updateOp
  | dataOp (chunk : List Nat)
  | endOp
  | readOp (offset len : Nat)
  | resetOp
  | closeOp
  deriving Repr

/-- Apply one operation; returns the new state and the waiters fired. -/
def applyOp (s : RectState) (op : RectOp) : RectState × List Nat :=
  match op with
  | .whenOp t w => let r := rectWhen s t w; (r.1, r.2.1)
  | .updateOp => let r := rectUpdateTask s; (r.1, r.2.1)
  | .dataOp chunk => let r := rectOnData s chunk; (r.1, r.2.1)
  | .endOp => let r := rectOnEnd s; (r.1, r.2.1)
  | .readOp off len => ((rectRead s (fun _ => 0) off len).1, [])
  | .resetOp => (rectReset s, [])
  | .closeOp => ((rectClose s).1, [])

/-- Run a sequence of operations, collecting every fired waiter. -/
def runOps : RectState → List RectOp → RectState × List Nat
  | s, [] => (s, [])
  | s, op :: ops =>
    let r := applyOp s op
    let rr := runOps r.1 ops
    (rr.1, r.2 ++ rr.2)

/-- Consume `n` bytes from the head of a chunk queue, pushing the tail of the
chunk in which the count is reached (possibly empty) back on the head. -/
def dropBytesQ : Nat → List (List Nat) → List (List Nat)
  | _, [] => []
  | n, c :: cs => if n ≤ c.length then c.drop n :: cs else dropBytesQ (n - c.length) cs

theorem triple_eq {A B C : Type} {a a' : A} {b b' : B} {c c' : C}
    (ha : a = a') (hb : b = b') (hc : c = c') : (a, b, c) = (a', b', c') := by
  rw [ha, hb, hc]

theorem copyChunk_reaches (c : List Nat) :
    ∀ (buf : Nat → Nat) (index len : Nat), index < len → len ≤ index + c.length →
      copyChunk buf index c len =
        ((fun j => if index ≤ j ∧ j < len then c.getD (j - index) 0 else buf j),
         len, some (c.drop (len - index))) := by
  induction c with
  | nil =>
    intro buf index len h1 h2
    simp only [List.length_nil, Nat.add_zero] at h2
    omega
  | cons x rest ih =>
    intro buf index len h1 h2
    rw [copyChunk]
    by_cases he : index + 1 = len
    · rw [if_pos he]
      refine triple_eq ?_ he ?_
      · funext j
        by_cases hj : index ≤ j ∧ j < len
        · have hji : j = index := by omega
          simp [hji, h1]
        · have hji : ¬ j = index := by omega
          simp [hji, hj]
      · rw [show len - index = 1 from by omega]
        rfl
    · rw [if_neg he]
      rw [ih _ (index + 1) len (by omega)
        (by simp only [List.length_cons] at h2; omega)]
      refine triple_eq ?_ rfl ?_
      · funext j
        by_cases hj1 : index + 1 ≤ j ∧ j < len
        · rw [if_pos hj1, if_pos (by omega : index ≤ j ∧ j < len)]
          rw [show j - index = (j - (index + 1)) + 1 from by omega]
          rfl
        · rw [if_neg hj1]
          by_cases hj2 : j = index
          · rw [if_pos (by omega : index ≤ j ∧ j < len)]
            simp [hj2]
          · rw [if_neg (by omega : ¬(index ≤ j ∧ j < len))]
            simp [hj2]
      · rw [show len - index = (len - (index + 1)) + 1 from by omega]
        rfl

theorem copyChunk_exhausts (c : List Nat) :
    ∀ (buf : Nat → Nat) (index len : Nat), index + c.length < len →
      copyChunk buf index c len =
        ((fun j => if index ≤ j ∧ j < index + c.length then c.getD (j - index) 0 else buf j),
         index + c.length, none) := by
  induction c with
  | nil =>
    intro buf index len _
    rw [copyChunk]
    refine triple_eq ?_ (by simp) rfl
    funext j
    rw [if_neg (by simp only [List.length_nil]; omega)]
  | cons x rest ih =>
    intro buf index len hlt
    rw [copyChunk]
    rw [if_neg (by simp only [List.length_cons] at hlt; omega)]
    rw [ih _ (index + 1) len (by simp only [List.length_cons] at hlt ⊢; omega)]
    refine triple_eq ?_ (by simp only [List.length_cons]; omega) rfl
    funext j
    by_cases hj1 : index + 1 ≤ j ∧ j < index + 1 + rest.length
    · rw [if_pos hj1,
        if_pos (by simp only [List.length_cons]; omega :
          index ≤ j ∧ j < index + (x :: rest).length)]
      rw [show j - index = (j - (index + 1)) + 1 from by omega]
      rfl
    · rw [if_neg hj1]
      by_cases hj2 : j = index
      · rw [if_pos (by simp only [List.length_cons]; omega :
          index ≤ j ∧ j < index + (x :: rest).length)]
        simp [hj2]
      · rw [if_neg (by simp only [List.length_cons]; omega :
          ¬(index ≤ j ∧ j < index + (x :: rest).length))]
        simp [hj2]

theorem readLoop_spec (bufs : List (List Nat)) :
    ∀ (buf : Nat → Nat) (index len : Nat), index < len → len ≤ index + sumLen bufs →
      readLoop buf index bufs len =
        ((fun j => if index ≤ j ∧ j < len
                   then (concatAll bufs).getD (j - index) 0 else buf j),
         dropBytesQ (len - index) bufs, true) := by
  induction bufs with
  | nil =>
    intro buf index len h1 h2
    simp [sumLen] at h2
    omega
  | cons c cs ih =>
    intro buf index len h1 h2
    rw [readLoop]
    by_cases hc : len ≤ index + c.length
    · rw [copyChunk_reaches c buf index len h1 hc]
      dsimp only
      rw [show dropBytesQ (len - index) (c :: cs)
          = c.drop (len - index) :: cs from by
        rw [dropBytesQ, if_pos (by omega)]]
      refine triple_eq ?_ rfl rfl
      funext j
      by_cases hj : index ≤ j ∧ j < len
      · rw [if_pos hj, if_pos hj, concatAll_cons, getD_append_lt _ (by omega)]
      · rw [if_neg hj, if_neg hj]
    · rw [copyChunk_exhausts c buf index len (by omega)]
      dsimp only
      rw [ih _ (index + c.length) len (by omega)
        (by rw [sumLen_cons] at h2; omega)]
      rw [show dropBytesQ (len - index) (c :: cs)
          = dropBytesQ (len - (index + c.length)) cs from by
        rw [dropBytesQ, if_neg (by omega)]
        congr 1
        omega]
      refine triple_eq ?_ rfl rfl
      funext j
      by_cases hj1 : index + c.length ≤ j ∧ j < len
      · rw [if_pos hj1, if_pos (by omega : index ≤ j ∧ j < len), concatAll_cons,
          getD_append_ge _ (by omega)]
        congr 1
        omega
      · rw [if_neg hj1]
        by_cases hj2 : index ≤ j ∧ j < index + c.length
        · rw [if_pos hj2, if_pos (by omega : index ≤ j ∧ j < len), concatAll_cons,
            getD_append_lt _ (by omega)]
        · rw [if_neg hj2, if_neg (by omega : ¬(index ≤ j ∧ j < len))]

theorem concatAll_dropBytesQ (bufs : List (List Nat)) :
    ∀ n, n ≤ sumLen bufs →
      concatAll (dropBytesQ n bufs) = (concatAll bufs).drop n := by
  induction bufs with
  | nil =>
    intro n hn
    simp [sumLen] at hn
    simp [dropBytesQ, concatAll, hn]
  | cons c cs ih =>
    intro n hn
    rw [dropBytesQ]
    by_cases hc : n ≤ c.length
    · rw [if_pos hc, concatAll_cons, concatAll_cons,
        List.drop_append_of_le_length hc]
    · rw [if_neg hc, concatAll_cons,
        ih (n - c.length) (by rw [sumLen_cons] at hn; omega)]
      rw [show n = c.length + (n - c.length) from by omega, List.drop_append]
      congr 1
      omega

/-! ### C2: Rectifier.read

`Rectifier.read(buffer, offset, length, position, cb)` has the signature and
documented contract of `fs.read`: the surrounding `readFile` dispatches to
`fs.read(fd, buffer, offset, length, position, cb)` with the same arguments
when `outputType === 'file'`, and the `FSFile.read` JSDoc it implements
documents `offset` as "the offset in the buffer to start writing at",
`length` as "the number of bytes to read" and `cb.bytesRead` as "number of
bytes actually read".  The loop's stop test `index == length` (commented
"filling complete") treats the byte count as an absolute destination index,
which matches that contract only for `offset = 0`. -/

/-- Concrete Rectifier state for the C2 failing input at `offset = 1`: one
queued chunk `[10, 20, 30]`, `length = 3`. -/
def c2CexState : RectState :=
  { offset := 0, size := 100, position := 3, cacheSize := 2097152
    buffers := [[10, 20, 30]], tasks := [], loaded := false, running := true
    closed := false, paused := false, length := 3, hasReq := true }

/-- Concrete Rectifier state for the C2 failing input at `length = 0`: queue
`[[10, 20]]`, `length = 2`. -/
def c2ZeroState : RectState :=
  { offset := 0, size := 100, position := 2, cacheSize := 2097152
    buffers := [[10, 20]], tasks := [], loaded := false, running := true
    closed := false, paused := false, length := 2, hasReq := true }

/-- C2 evaluated at the failing inputs.  `read(buffer, 1, 2, ...)` on a queue
holding `[10,20,30]` (so `len = 2 ≤ length = 3`, destination offset 1) copies
only one byte (`buffer[1] = 10`, `buffer[2]` untouched), leaves `[20,30]` —
two bytes, not one — at the head of the queue, yet still decrements `length`
by 2 and reports 2 to the callback; and `read(buffer, 0, 0, ...)` on a
two-byte queue drains the entire queue into the buffer while reporting 0 and
leaving `length = 2`.  The claim (and the fs.read-style contract the
function's own documentation promises) says exactly `len` bytes are copied
into `buffer[off..off+len]` and removed from the head for every offset. -/
theorem C2_read_eval :
    (rectRead c2CexState (fun _ => 0) 1 2).2.2 = 2 ∧
    (rectRead c2CexState (fun _ => 0) 1 2).2.1 1 = 10 ∧
    (rectRead c2CexState (fun _ => 0) 1 2).2.1 2 = 0 ∧
    (rectRead c2CexState (fun _ => 0) 1 2).1.buffers = [[20, 30]] ∧
    (rectRead c2CexState (fun _ => 0) 1 2).1.length = 1 ∧
    ¬((rectRead c2CexState (fun _ => 0) 1 2).2.1 2 = 20 ∧
      concatAll (rectRead c2CexState (fun _ => 0) 1 2).1.buffers = [30]) ∧
    (rectRead c2ZeroState (fun _ => 0) 0 0).2.2 = 0 ∧
    (rectRead c2ZeroState (fun _ => 0) 0 0).1.buffers = [] ∧
    (rectRead c2ZeroState (fun _ => 0) 0 0).1.length = 2 ∧
    (rectRead c2ZeroState (fun _ => 0) 0 0).2.1 0 = 10 ∧
    (rectRead c2ZeroState (fun _ => 0) 0 0).2.1 1 = 20 := by
  refine ⟨rfl, rfl, rfl, rfl, rfl, ?_, rfl, rfl, rfl, rfl, rfl⟩
  intro h
  simp [rectRead, readLoop, copyChunk, c2CexState, concatAll] at h

/-- Supporting lemma: at destination offset 0 with a positive clamped length
the loop does implement the documented contract — with
`len = min(requested, length)`, exactly the first `len` bytes of the queued
stream are copied into `buffer[0..len]` (positions ≥ `len` untouched), the
partially consumed chunk's tail is pushed back on the head of the queue
(`dropBytesQ`), `length` decreases by `len`, and the callback receives `len`.
This isolates the slip to the offset handling of the stop test. -/
theorem rectRead_zero_offset_spec (s : RectState) (buffer : Nat → Nat)
    (length0 : Nat)
    (hinv : s.length = sumLen s.buffers) (hpos : 1 ≤ min length0 s.length) :
    rectRead s buffer 0 length0 =
      ({ s with buffers := dropBytesQ (min length0 s.length) s.buffers,
                length := s.length - min length0 s.length },
       (fun j => if j < min length0 s.length
                 then (concatAll s.buffers).getD j 0 else buffer j),
       min length0 s.length) ∧
    concatAll (dropBytesQ (min length0 s.length) s.buffers) =
      (concatAll s.buffers).drop (min length0 s.length) := by
  have hminle : min length0 s.length ≤ s.length := Nat.min_le_right _ _
  constructor
  · rw [rectRead]
    rw [show (if length0 > s.length then s.length else length0)
        = min length0 s.length from by split_ifs <;> omega]
    rw [readLoop_spec s.buffers buffer 0 (min length0 s.length) (by omega)
      (by omega)]
    dsimp only
    rw [if_pos rfl]
    rw [Nat.sub_zero]
    refine triple_eq rfl ?_ rfl
    funext j
    by_cases hj : j < min length0 s.length
    · rw [if_pos ⟨Nat.zero_le j, hj⟩, if_pos hj, Nat.sub_zero]
    · rw [if_neg (by omega), if_neg hj]
  · exact concatAll_dropBytesQ s.buffers _ (by omega)

/-- Concrete state exercising `rectRead_zero_offset_spec`: queue
`[[10, 20], [30]]`, three bytes, read of two. -/
def c2WitState : RectState :=
  { offset := 0, size := 100, position := 3, cacheSize := 2097152
    buffers := [[10, 20], [30]], tasks := [], loaded := false, running := true
    closed := false, paused := false, length := 3, hasReq := true }

/-- `rectRead_zero_offset_spec` instantiated at `off = 0`, `len = 2` on a
two-chunk queue. -/
theorem rectRead_zero_offset_example :
    rectRead c2WitState (fun _ => 0) 0 2 =
      ({ c2WitState with
          buffers := dropBytesQ (min 2 c2WitState.length) c2WitState.buffers,
          length := c2WitState.length - min 2 c2WitState.length },
       (fun j => if j < min 2 c2WitState.length
                 then (concatAll c2WitState.buffers).getD j 0 else (fun _ => 0) j),
       min 2 c2WitState.length) ∧
    concatAll (dropBytesQ (min 2 c2WitState.length) c2WitState.buffers) =
      (concatAll c2WitState.buffers).drop (min 2 c2WitState.length) :=
  rectRead_zero_offset_spec c2WitState (fun _ => 0) 2 (by decide) (by decide)

/-! ### C3: Rectifier.updateTask -/

theorem farestChunk_cons (t : RectTask) (ts : List RectTask) :
    farestChunk (t :: ts) = max t.target (farestChunk ts) := rfl

/-- With a non-empty task list of non-negative targets, `farestChunk` is the
maximum of the targets: it is one of them and bounds all of them. -/
theorem farestChunk_spec (tasks : List RectTask) (hne : tasks ≠ [])
    (hpos : tasks.all (fun t => decide (0 ≤ t.target)) = true) :
    farestChunk tasks ∈ tasks.map RectTask.target ∧
    tasks.all (fun t => decide (t.target ≤ farestChunk tasks)) = true := by
  induction tasks with
  | nil => exact absurd rfl hne
  | cons t ts ih =>
    simp only [List.all_cons, Bool.and_eq_true, decide_eq_true_eq] at hpos
    cases ts with
    | nil =>
      rw [farestChunk_cons]
      rw [show farestChunk [] = 0 from rfl]
      rw [max_eq_left hpos.1]
      exact ⟨by simp, by simp⟩
    | cons t2 ts2 =>
      obtain ⟨hmem, hbound⟩ := ih (by simp) hpos.2
      rw [farestChunk_cons]
      constructor
      · rcases le_total t.target (farestChunk (t2 :: ts2)) with hle | hle
        · rw [max_eq_right hle]
          simp only [List.map_cons, List.mem_cons]
          simp only [List.map_cons, List.mem_cons] at hmem
          tauto
        · rw [max_eq_left hle]
          simp
      · simp only [List.all_cons, Bool.and_eq_true, decide_eq_true_eq] at hbound ⊢
        refine ⟨le_max_left _ _, ?_, ?_⟩
        · exact le_trans hbound.1 (le_max_right _ _)
        · simp only [List.all_eq_true, decide_eq_true_eq] at hbound ⊢
          intro x hx
          exact le_trans (hbound.2 x hx) (le_max_right _ _)

/-- The delivery predicate of `updateTask`: fire when `target ≤ position`, or
when `target > size` and the stream has fully loaded. -/
def taskFires (position size : Int) (loaded : Bool) (t : RectTask) : Bool :=
  decide (t.target ≤ position) || (decide (size < t.target) && loaded)

theorem taskLoop_eq_filter (position size : Int) (loaded : Bool)
    (tasks : List RectTask) :
    taskLoop position size loaded tasks =
      (tasks.filter (fun t => ! taskFires position size loaded t),
       (tasks.filter (taskFires position size loaded)).map RectTask.waiter) := by
  induction tasks with
  | nil => rfl
  | cons t ts ih =>
    rw [taskLoop, ih]
    by_cases h1 : t.target ≤ position
    · rw [if_pos h1]
      simp [taskFires, List.filter_cons, h1]
    · rw [if_neg h1]
      by_cases h2 : t.target > size
      · rw [if_pos h2]
        cases hl : loaded
        · simp [taskFires, List.filter_cons, h1, h2, hl]
        · simp [taskFires, List.filter_cons, h1, h2, hl]
      · rw [if_neg h2]
        simp [taskFires, List.filter_cons, h1, show ¬ size < t.target from h2]

/-- C3: on a non-empty task set with non-negative targets and a positive
cacheSize, `updateTask` (1) computes `farestChunk` = the farthest target,
(2) pauses exactly when `position − farthest > cacheSize` and resumes (if
paused) exactly when `position − farthest < cacheSize / 5`, and (3) fires
and removes exactly the tasks with `target ≤ position` or (`target > size`
and `loaded`), retaining all others in order. -/
theorem C3_updateTask (s : RectState) (hne : s.tasks ≠ [])
    (hpos : s.tasks.all (fun t => decide (0 ≤ t.target)) = true)
    (hcache : 0 < s.cacheSize) :
    (farestChunk s.tasks ∈ s.tasks.map RectTask.target ∧
      s.tasks.all (fun t => decide (t.target ≤ farestChunk s.tasks)) = true) ∧
    (rectUpdateTask s).1.paused =
      (if s.cacheSize < s.position - farestChunk s.tasks then true
       else if 5 * (s.position - farestChunk s.tasks) < s.cacheSize ∧ s.paused = true
       then false
       else s.paused) ∧
    (rectUpdateTask s).2.1 =
      (s.tasks.filter (taskFires s.position s.size s.loaded)).map RectTask.waiter ∧
    (rectUpdateTask s).1.tasks =
      s.tasks.filter (fun t => ! taskFires s.position s.size s.loaded t) := by
  refine ⟨farestChunk_spec s.tasks hne hpos, ?_, ?_, ?_⟩
  · rw [rectUpdateTask]
    dsimp only
    by_cases hp : s.position - farestChunk s.tasks > s.cacheSize
    · rw [if_pos hp, if_pos (show s.cacheSize < s.position - farestChunk s.tasks from hp)]
    · rw [if_neg hp,
        if_neg (show ¬ s.cacheSize < s.position - farestChunk s.tasks from hp)]
      by_cases hr : 5 * (s.position - farestChunk s.tasks) < s.cacheSize
      · rw [if_pos hr]
        cases hps : s.paused
        · simp [hr]
        · simp [hr]
      · rw [if_neg hr, if_neg (by exact fun h => hr h.1)]
  · rw [rectUpdateTask]
    dsimp only
    rw [taskLoop_eq_filter]
  · rw [rectUpdateTask]
    dsimp only
    rw [taskLoop_eq_filter]

/-- Concrete state for the C3 witness (spec §8 scenario 6): one waiter at
target 100 while `position` is 3 MiB and `cacheSize` is 2 MiB: the waiter
fires immediately and the upstream is paused. -/
def c3WitState : RectState :=
  { offset := 0, size := 10485760, position := 3145728, cacheSize := 2097152
    buffers := [], tasks := [{ target := 100, waiter := 7 }], loaded := false
    running := true, closed := false, paused := false, length := 0, hasReq := true }

/-- Witness for C3 at the concrete backpressure state. -/
theorem C3_updateTask_witness :
    (farestChunk c3WitState.tasks ∈ c3WitState.tasks.map RectTask.target ∧
      c3WitState.tasks.all
        (fun t => decide (t.target ≤ farestChunk c3WitState.tasks)) = true) ∧
    (rectUpdateTask c3WitState).1.paused =
      (if c3WitState.cacheSize < c3WitState.position - farestChunk c3WitState.tasks
       then true
       else if 5 * (c3WitState.position - farestChunk c3WitState.tasks) <
           c3WitState.cacheSize ∧ c3WitState.paused = true
       then false
       else c3WitState.paused) ∧
    (rectUpdateTask c3WitState).2.1 =
      (c3WitState.tasks.filter
        (taskFires c3WitState.position c3WitState.size c3WitState.loaded)).map
        RectTask.waiter ∧
    (rectUpdateTask c3WitState).1.tasks =
      c3WitState.tasks.filter
        (fun t => ! taskFires c3WitState.position c3WitState.size c3WitState.loaded t) :=
  C3_updateTask c3WitState (by decide) (by decide) (by decide)

/-! ### C10: Rectifier.close quiescence -/

/-- A closed Rectifier with an empty task list stays closed and task-free
under every operation, and no operation fires any waiter. -/
theorem applyOp_preserves_closed (s : RectState) (op : RectOp)
    (hc : s.closed = true) (ht : s.tasks = []) :
    (applyOp s op).1.closed = true ∧ (applyOp s op).1.tasks = [] ∧
    (applyOp s op).2 = [] := by
  cases op with
  | whenOp t w =>
    simp [applyOp, rectWhen, hc, ht]
  | updateOp =>
    refine ⟨by simp [applyOp, rectUpdateTask, hc], ?_, ?_⟩
    · simp [applyOp, rectUpdateTask, ht, taskLoop]
    · simp [applyOp, rectUpdateTask, ht, taskLoop]
  | dataOp chunk =>
    refine ⟨by simp [applyOp, rectOnData, rectUpdateTask, hc], ?_, ?_⟩
    · simp [applyOp, rectOnData, rectUpdateTask, ht, taskLoop]
    · simp [applyOp, rectOnData, rectUpdateTask, ht, taskLoop]
  | endOp =>
    refine ⟨by simp [applyOp, rectOnEnd, rectUpdateTask, hc], ?_, ?_⟩
    · simp [applyOp, rectOnEnd, rectUpdateTask, ht, taskLoop]
    · simp [applyOp, rectOnEnd, rectUpdateTask, ht, taskLoop]
  | readOp off len =>
    exact ⟨by simp [applyOp, rectRead, hc], by simp [applyOp, rectRead, ht], rfl⟩
  | resetOp =>
    exact ⟨by simp [applyOp, rectReset, hc], by simp [applyOp, rectReset], rfl⟩
  | closeOp =>
    refine ⟨?_, ?_, rfl⟩ <;>
      · simp only [applyOp, rectClose]
        split <;> simp

theorem runOps_preserves_closed (ops : List RectOp) :
    ∀ s : RectState, s.closed = true → s.tasks = [] →
      (runOps s ops).1.closed = true ∧ (runOps s ops).1.tasks = [] ∧
      (runOps s ops).2 = [] := by
  induction ops with
  | nil => intro s hc ht; exact ⟨hc, ht, rfl⟩
  | cons op ops ih =>
    intro s hc ht
    obtain ⟨h1, h2, h3⟩ := applyOp_preserves_closed s op hc ht
    obtain ⟨h4, h5, h6⟩ := ih (applyOp s op).1 h1 h2
    rw [runOps]
    exact ⟨h4, h5, by rw [h3, h6]; rfl⟩

/-- C10: after `close()` the Rectifier is closed with an empty task list;
every subsequent `when` returns immediately without registering a task,
starting a request, or firing anything; and no operation sequence run after
the close ever invokes a waiter — neither one registered before the close
(they were cleared) nor one registered after (none can be). -/
theorem C10_close_quiescent (s : RectState) (target : Int) (waiter : Nat)
    (ops : List RectOp) :
    (rectClose s).1.closed = true ∧
    (rectClose s).1.tasks = [] ∧
    rectWhen (rectClose s).1 target waiter = ((rectClose s).1, [], []) ∧
    (runOps (rectClose s).1 ops).1.closed = true ∧
    (runOps (rectClose s).1 ops).1.tasks = [] ∧
    (runOps (rectClose s).1 ops).2 = [] := by
  have hc : (rectClose s).1.closed = true := by
    rw [rectClose]
    split <;> rfl
  have ht : (rectClose s).1.tasks = [] := by
    rw [rectClose]
    split <;> rfl
  obtain ⟨h4, h5, h6⟩ := runOps_preserves_closed ops (rectClose s).1 hc ht
  exact ⟨hc, ht, by rw [rectWhen, if_pos hc], h4, h5, h6⟩

/-! ### C1: command dispatcher (lib/smb/handler.js, `_handleRequest`) -/

/-- What a registered command handler passes to its per-command continuation
(or that it throws inside its domain, which `process.exit`s). -/
inductive HandlerResult where
  | noResult
  | res (status : Nat) (params data : List Nat) (wordCount byteCount : Option Nat)
  | throwsErr
  deriving DecidableEq, Repr

/-- Observable outcome of dispatching one decoded message: the status handed
to `sendResponse` (none when `msg.processed` suppressed the reply or the
process exited first), an exception escaping the dispatcher, and whether the
domain error handler called `process.exit`. -/
structure DispatchOutcome where
  sentStatus : Option Nat
  thrown : Option JsErr
  fatalExit : Bool
  deriving DecidableEq, Repr

/-- Modelled from the spec: the static command-id table
`SMB.COMMAND_TO_STRING` (lib/smb/constants.js not covered); entries for the
commands the spec names (§2, §4.E).  Only presence/absence of an entry
matters to the dispatcher theorem. -/
def commandToString (id : Nat) : Option String :=
  ([(0x04, "close"), (0x06, "delete"), (0x2b, "echo"), (0x2e, "read_andx"),
    (0x2f, "write_andx"), (0x32, "trans2"), (0x72, "negotiate"),
    (0x73, "session_setup_andx"), (0x75, "tree_connect_andx"),
    (0xa2, "nt_create_andx")] : List (Nat × String)).lookup id

/-- The message-level mutable state the dispatcher threads through the
command loop. -/
structure MsgState where
  status : Option Nat
  processed : Bool
  deriving DecidableEq, Repr

/-- `_handleRequest` (lib/smb/handler.js lines 72-151) over the decoded
command-id list, with `async.eachSeries` semantics (sequential; an error
callback aborts the iteration and the final callback sends the response with
that status).

Unknown command (line 77-83): the iterator invokes the continuation with
`STATUS_SMB_BAD_COMMAND` — `eachSeries` aborts and `sendResponse` emits that
status — but there is no `return`, so control falls through:
`cmdHandlers[command]` with `command === undefined` finds no handler, and the
no-handler branch then evaluates `command.toUpperCase()` on `undefined`,
throwing a TypeError that escapes the dispatcher. -/
def runCmds (table : Nat → Option String) (handlers : List (String × HandlerResult)) :
    MsgState → List Nat → DispatchOutcome
  | ms, [] =>
    { sentStatus := if ms.processed then none else some (ms.status.getD STATUS_SUCCESS)
      thrown := none
      fatalExit := false }
  | ms, cmdId :: rest =>
    match table cmdId with
    | none =>
      { sentStatus := some STATUS_SMB_BAD_COMMAND
        thrown := some .typeError
        fatalExit := false }
    | some command =>
      match handlers.lookup command with
      | none =>
        { sentStatus := some STATUS_NOT_IMPLEMENTED, thrown := none, fatalExit := false }
      | some hres =>
        match hres with
        | .throwsErr => { sentStatus := none, thrown := none, fatalExit := true }
        | .noResult => runCmds table handlers { ms with processed := true } rest
        | .res st _ _ _ _ =>
          if st = STATUS_SUCCESS then runCmds table handlers ms rest
          else if st = STATUS_MORE_PROCESSING_REQUIRED then
            runCmds table handlers { ms with status := some st } rest
          else
            { sentStatus := some st, thrown := none, fatalExit := false }

/-- C1 evaluated at the failing input: command id 0x9f has no entry in the
command table, so the dispatcher records STATUS_SMB_BAD_COMMAND, aborts the
remaining commands and sends the error response — but, for lack of a
`return`, it then throws a TypeError (`command.toUpperCase()` on undefined)
that escapes the dispatcher instead of stopping cleanly. -/
theorem C1_unknown_command_eval :
    commandToString 0x9f = none ∧
    runCmds commandToString [] { status := none, processed := false } [0x9f, 0x04] =
      { sentStatus := some STATUS_SMB_BAD_COMMAND
        thrown := some .typeError
        fatalExit := false } ∧
    (runCmds commandToString [] { status := none, processed := false }
      [0x9f, 0x04]).thrown ≠ none := by
  decide
